import Mathlib

/-!
Verification of the Terminal Session Orchestrator of req-auto-mgmt.

The definitions below are a shallow embedding of
`src/services/terminal-service/src/services/ptyManager.ts`,
`src/services/terminal-service/src/services/sessionManager.ts`,
`src/services/terminal-service/src/services/notificationService.ts` and the
session-list route of `src/services/terminal-service/src/routes/index.ts`.

Modelling conventions:
- A JS `Map<string, PtyInstance>` becomes an association list `List (Nat × PtyInstance)`
  in insertion order; `uuidv4()` id generation becomes a fresh-counter `nextId`.
- `Date.now()` timestamps and pty exit codes are `Int` values passed in explicitly.
- The asynchronous `onData` / `onExit` callbacks, and the public calls
  (`createSession`, `writeToSession`, `resizeSession`, `killSession`,
  `removeSession`) are discrete events of a single-threaded step function,
  matching the event-loop model of the source.
- Writes forwarded to the underlying pty process are returned as data
  (`Option String`), since the OS process itself is outside the embedding.
-/

/-- Session status enum of `TerminalSession.status`. -/
inductive Status where
  | running
  | completed
  | failed
deriving DecidableEq, Repr

/-- The `TerminalSession` record of `types/index.ts`. -/
structure TerminalSession where
  id : Nat
  requirementId : Option String
  projectPath : String
  aiTool : String
  status : Status
  command : String
  cwd : String
  createdAt : Int
  completedAt : Option Int
  exitCode : Option Int
deriving DecidableEq, Repr

/-- The `CreateSessionRequest` record of `types/index.ts`. -/
structure CreateSessionRequest where
  requirementId : Option String
  projectPath : String
  aiTool : String
  command : String
  cwd : String
  initialInput : Option String
deriving DecidableEq, Repr

/-- The single-quote character, written via its code point to keep the
source free of bare quote characters. -/
def squote : Char := Char.ofNat 39

/-- The single-quote character as a one-character string. -/
def squoteStr : String := String.singleton squote

/-- The POSIX escape for an embedded single quote: quote, backslash, quote, quote.
This is the JS string literal used in `replace(/'/g, ...)` in `createSession`. -/
def escSeq : String := squoteStr ++ "\\" ++ squoteStr ++ squoteStr

/-- Global replacement of every single-quote character by `escSeq`, the
effect of `request.initialInput.replace(/'/g, ...)` in `ptyManager.ts`. -/
def escapeSingleQuotes (s : String) : String :=
  String.mk (s.data.foldr (fun c acc => if c = squote then escSeq.data ++ acc else c :: acc) [])

/-- The text the delayed `setTimeout` body of `PtyManager.createSession`
writes into the pty: `none` when nothing is written.  JS truthiness makes
both an absent and an empty `command` / `initialInput` falsy. -/
def injectedText (req : CreateSessionRequest) : Option String :=
  if req.command ≠ "" then
    let fullCommand :=
      match req.initialInput with
      | some input =>
          if input ≠ "" then
            req.command ++ " " ++ squoteStr ++ escapeSingleQuotes input ++ squoteStr
          else req.command
      | none => req.command
    some (fullCommand ++ "\r")
  else none

/-- What the spec sentence for the injected text literally promises for a
supplied `initialInput`: the command, a space, and the single-quoted escaped
input, followed by a carriage return.  Named separately so it can be compared
with `injectedText`, the definition translated from the source. -/
def claimInjectedText (command input : String) : String :=
  command ++ " " ++ squoteStr ++ escapeSingleQuotes input ++ squoteStr ++ "\r"

/-- The `PtyInstance` record of `ptyManager.ts` (the live pty handle itself is
outside the embedding; its observable state is the session and the buffer). -/
structure PtyInstance where
  session : TerminalSession
  outputBuffer : List String
deriving DecidableEq, Repr

/-- The `PtyManager` state: the `instances` map in insertion order plus the
fresh-id counter standing in for `uuidv4()`. -/
structure PtyManager where
  instances : List (Nat × PtyInstance)
  nextId : Nat
deriving DecidableEq, Repr

/-- `MAX_PARALLEL_SESSIONS` of `ptyManager.ts`. -/
def MAX_PARALLEL_SESSIONS : Nat := 5

/-- `this.instances.get(sessionId)`. -/
def lookupInst (st : PtyManager) (sessionId : Nat) : Option PtyInstance :=
  (st.instances.find? (fun p => decide (p.1 = sessionId))).map Prod.snd

/-- `this.instances.set(sessionId, inst)`: replace in place when the key is
present, append otherwise (JS `Map` insertion-order semantics). -/
def setInst (st : PtyManager) (sessionId : Nat) (inst : PtyInstance) : PtyManager :=
  if (st.instances.find? (fun p => decide (p.1 = sessionId))).isSome then
    { st with instances := st.instances.map (fun p => if p.1 = sessionId then (p.1, inst) else p) }
  else
    { st with instances := st.instances ++ [(sessionId, inst)] }

/-- In-place mutation of the instance stored under a key, as the JS callbacks
do through their captured references. -/
def modifyInst (st : PtyManager) (sessionId : Nat) (f : PtyInstance → PtyInstance) : PtyManager :=
  { st with instances := st.instances.map (fun p => if p.1 = sessionId then (p.1, f p.2) else p) }

/-- `this.instances.delete(sessionId)`. -/
def eraseInst (st : PtyManager) (sessionId : Nat) : PtyManager :=
  { st with instances := st.instances.filter (fun p => decide (p.1 ≠ sessionId)) }

/-- `PtyManager.getActiveSessionCount`. -/
def getActiveSessionCount (st : PtyManager) : Nat :=
  st.instances.countP (fun p => decide (p.2.session.status = Status.running))

/-- `PtyManager.canCreateSession`. -/
def canCreateSession (st : PtyManager) : Bool :=
  decide (getActiveSessionCount st < MAX_PARALLEL_SESSIONS)

/-- `PtyManager.createSession`: admission check, then id allocation, session
record construction with `status = running`, and registration of the instance
with an empty output buffer.  The happy spawn path is modelled (the claims
are about the admission path and the registry state). -/
def createSession (st : PtyManager) (req : CreateSessionRequest) (now : Int) :
    Option TerminalSession × PtyManager :=
  if canCreateSession st then
    let session : TerminalSession :=
      { id := st.nextId
        requirementId := req.requirementId
        projectPath := req.projectPath
        aiTool := req.aiTool
        status := Status.running
        command := req.command
        cwd := req.cwd
        createdAt := now
        completedAt := none
        exitCode := none }
    let inst : PtyInstance := { session := session, outputBuffer := [] }
    (some session, { setInst st st.nextId inst with nextId := st.nextId + 1 })
  else
    (none, st)

/-- Body of the `ptyProcess.onData` listener: push the chunk, then shift the
oldest chunk out when the buffer holds more than 10000 chunks. -/
def pushChunk (buf : List String) (data : String) : List String :=
  let buf2 := buf ++ [data]
  if buf2.length > 10000 then buf2.drop 1 else buf2

/-- The `onData` callback as a registry step (a no-op for an id that is not
resident, matching a callback of an instance no longer in the map). -/
def onData (st : PtyManager) (sessionId : Nat) (data : String) : PtyManager :=
  modifyInst st sessionId (fun inst => { inst with outputBuffer := pushChunk inst.outputBuffer data })

/-- The `ptyProcess.onExit` listener: unconditionally sets `status` from the
exit code, `completedAt` and `exitCode`.  Note the source has no guard on the
current status. -/
def onExit (st : PtyManager) (sessionId : Nat) (exitCode : Int) (now : Int) : PtyManager :=
  modifyInst st sessionId (fun inst =>
    { inst with session :=
        { inst.session with
            status := if exitCode = 0 then Status.completed else Status.failed
            completedAt := some now
            exitCode := some exitCode } })

/-- `PtyManager.getSession`. -/
def getSession (st : PtyManager) (sessionId : Nat) : Option TerminalSession :=
  (lookupInst st sessionId).map PtyInstance.session

/-- `PtyManager.getAllSessions`. -/
def getAllSessions (st : PtyManager) : List TerminalSession :=
  st.instances.map (fun p => p.2.session)

/-- `PtyManager.getSessionOutput`: join of the buffer, empty for a
non-resident id. -/
def getSessionOutput (st : PtyManager) (sessionId : Nat) : String :=
  match lookupInst st sessionId with
  | some inst => String.join inst.outputBuffer
  | none => ""

/-- `PtyManager.writeToSession`: the boolean result and the data actually
forwarded to the pty (`none` when nothing is forwarded). -/
def writeToSession (st : PtyManager) (sessionId : Nat) (data : String) :
    Bool × Option String :=
  match lookupInst st sessionId with
  | none => (false, none)
  | some inst =>
      if inst.session.status = Status.running then (true, some data) else (false, none)

/-- `PtyManager.resizeSession`: same guard as write; the forwarded geometry is
returned when forwarding happens. -/
def resizeSession (st : PtyManager) (sessionId : Nat) (cols rows : Nat) :
    Bool × Option (Nat × Nat) :=
  match lookupInst st sessionId with
  | none => (false, none)
  | some inst =>
      if inst.session.status = Status.running then (true, some (cols, rows)) else (false, none)

/-- `PtyManager.killSession`: on a running session, kill the pty and set
`status = failed` and `completedAt = now` (the source sets no `exitCode`
here); on a resident non-running session, return `true` without any change;
`false` for an unknown id. -/
def killSession (st : PtyManager) (sessionId : Nat) (now : Int) : Bool × PtyManager :=
  match lookupInst st sessionId with
  | none => (false, st)
  | some inst =>
      if inst.session.status = Status.running then
        (true, modifyInst st sessionId (fun i =>
          { i with session :=
              { i.session with status := Status.failed, completedAt := some now } }))
      else
        (true, st)

/-- `PtyManager.removeSession`: kill first when still running, then delete the
instance from the registry. -/
def removeSession (st : PtyManager) (sessionId : Nat) (now : Int) : Bool × PtyManager :=
  match lookupInst st sessionId with
  | none => (false, st)
  | some inst =>
      let st2 := if inst.session.status = Status.running then (killSession st sessionId now).2 else st
      (true, eraseInst st2 sessionId)

/-- The discrete events that mutate or probe the registry: the public calls
and the two asynchronous pty callbacks. -/
inductive Event where
  | createEv (req : CreateSessionRequest) (now : Int)
  | dataEv (sessionId : Nat) (data : String)
  | exitEv (sessionId : Nat) (code : Int) (now : Int)
  | writeEv (sessionId : Nat) (data : String)
  | resizeEv (sessionId : Nat) (cols rows : Nat)
  | killEv (sessionId : Nat) (now : Int)
  | removeEv (sessionId : Nat) (now : Int)
deriving DecidableEq, Repr

/-- One event-loop step of the registry. `write` and `resize` never mutate
registry state (they only forward to the pty). -/
def step (st : PtyManager) : Event → PtyManager
  | Event.createEv req now => (createSession st req now).2
  | Event.dataEv sessionId data => onData st sessionId data
  | Event.exitEv sessionId code now => onExit st sessionId code now
  | Event.writeEv _ _ => st
  | Event.resizeEv _ _ _ => st
  | Event.killEv sessionId now => (killSession st sessionId now).2
  | Event.removeEv sessionId now => (removeSession st sessionId now).2

/-- The registry state of a freshly constructed `PtyManager`. -/
def initState : PtyManager := { instances := [], nextId := 0 }

/-- Run a whole event trace from the initial state. -/
def run (evs : List Event) : PtyManager :=
  evs.foldl step initState

/-- Instrumentation for buffer reasoning: the full per-session emission
history, updated exactly when the `onData` callback finds a resident
instance.  This is a ghost companion of `step`, not part of the source. -/
def histStep (st : PtyManager) (h : Nat → List String) : Event → (Nat → List String)
  | Event.dataEv sessionId data =>
      if (lookupInst st sessionId).isSome then
        fun j => if j = sessionId then h j ++ [data] else h j
      else h
  | _ => h

/-- Run a trace while also accumulating each session's full emission history. -/
def runH (evs : List Event) : PtyManager × (Nat → List String) :=
  evs.foldl (fun acc e => (step acc.1 e, histStep acc.1 acc.2 e)) (initState, fun _ => [])

/-- The persisted artifacts of `sessionManager.ts`: one metadata JSON file and
one raw log file per session id, both under the log directory. -/
structure PersistState where
  metas : List (Nat × TerminalSession)
  logs : List (Nat × String)
deriving DecidableEq, Repr

/-- `loadSessionMeta`: read and parse the metadata file of one session id. -/
def loadSessionMeta (ps : PersistState) (sessionId : Nat) : Option TerminalSession :=
  (ps.metas.find? (fun p => decide (p.1 = sessionId))).map Prod.snd

/-- `deleteSessionLog`: unlink both the log file and the metadata file of the
given session id. -/
def deleteSessionLog (ps : PersistState) (sessionId : Nat) : PersistState :=
  { metas := ps.metas.filter (fun p => decide (p.1 ≠ sessionId))
    logs := ps.logs.filter (fun p => decide (p.1 ≠ sessionId)) }

/-- The retention cutoff computed by `cleanupOldLogs`:
`Date.now() - daysToKeep * 24 * 60 * 60 * 1000`. -/
def cleanupCutoff (daysToKeep now : Int) : Int :=
  now - daysToKeep * 24 * 60 * 60 * 1000

/-- `cleanupOldLogs`: walk the directory listing of metadata files, load each
session, and delete metadata plus log for every session whose `createdAt` is
before the cutoff, counting the deletions. -/
def cleanupOldLogs (ps : PersistState) (daysToKeep now : Int) : PersistState × Nat :=
  let cutoff := cleanupCutoff daysToKeep now
  let files := ps.metas.map Prod.fst
  files.foldl (fun acc sessionId =>
    match loadSessionMeta acc.1 sessionId with
    | some session =>
        if session.createdAt < cutoff then (deleteSessionLog acc.1 sessionId, acc.2 + 1)
        else acc
    | none => acc) (ps, 0)

/-- The comparator of `getAllSavedSessions`: `b.createdAt - a.createdAt`
ascending, i.e. `createdAt` descending. -/
def createdAtDesc (a b : TerminalSession) : Prop := b.createdAt ≤ a.createdAt

instance : DecidableRel createdAtDesc :=
  fun a b => inferInstanceAs (Decidable (b.createdAt ≤ a.createdAt))

instance : IsTotal TerminalSession createdAtDesc :=
  ⟨fun a b => le_total b.createdAt a.createdAt⟩

instance : IsTrans TerminalSession createdAtDesc :=
  ⟨fun _ _ _ h1 h2 => le_trans h2 h1⟩

/-- `getAllSavedSessions`: every readable metadata record, sorted by
`createdAt` descending. -/
def getAllSavedSessions (ps : PersistState) : List TerminalSession :=
  List.insertionSort createdAtDesc (ps.metas.map Prod.snd)

/-- The merge performed by the `GET /sessions` route: resident sessions first,
then the persisted sessions whose ids are not resident. -/
def mergedSessions (activeSessions savedSessions : List TerminalSession) :
    List TerminalSession :=
  activeSessions ++ savedSessions.filter (fun s => !(activeSessions.any (fun a => decide (a.id = s.id))))

/-- `NotificationConfig` of `types/index.ts`. -/
structure NotificationConfig where
  enabled : Bool
  webhookUrl : String
deriving DecidableEq, Repr

/-- The outcome of one webhook HTTP exchange, as the environment resolves it:
a response with a status code and the parsed `errcode` of its body (`none`
when the body fails to parse), a request error, a timeout, or a failure
before the request is issued (e.g. the URL constructor throwing). -/
inductive HttpOutcome where
  | response (statusCode : Nat) (errcode : Option Int)
  | netError
  | timeout
  | badUrl
deriving DecidableEq, Repr

/-- What `sendWeChatMessage` did: the message body of the HTTP request it
issued (`none` when no request was issued at all), and the boolean the
returned promise resolves to. -/
structure SendResult where
  requested : Option String
  delivered : Bool
deriving DecidableEq, Repr

/-- `sendWeChatMessage` control flow: disabled configuration or an empty
webhook URL short-circuit to `false` with no request; otherwise the promise
resolves `true` exactly on a 200 response whose body parses with
`errcode == 0`, and `false` on every error, timeout or non-200 path.  The
function always resolves and never rejects. -/
def sendWeChatMessage (cfg : NotificationConfig) (message : String)
    (outcome : HttpOutcome) : SendResult :=
  if !cfg.enabled || cfg.webhookUrl = "" then
    { requested := none, delivered := false }
  else
    match outcome with
    | HttpOutcome.badUrl => { requested := none, delivered := false }
    | HttpOutcome.netError => { requested := some message, delivered := false }
    | HttpOutcome.timeout => { requested := some message, delivered := false }
    | HttpOutcome.response statusCode errcode =>
        if statusCode = 200 then
          match errcode with
          | some e => { requested := some message, delivered := decide (e = 0) }
          | none => { requested := some message, delivered := false }
        else
          { requested := some message, delivered := false }

/-- The elapsed-seconds computation of `notifyTaskCompleted`:
`Math.round((completedAt - createdAt) / 1000)`, and `0` while running. -/
def notifyDuration (session : TerminalSession) : Int :=
  match session.completedAt with
  | some c => Int.fdiv (c - session.createdAt + 500) 1000
  | none => 0

/-- The markdown body composed by `notifyTaskCompleted`. -/
def notifyContent (session : TerminalSession) : String :=
  (if session.status = Status.completed then "✅" else "❌") ++
  " **AI 任务" ++ (if session.status = Status.completed then "成功" else "失败") ++ "**\n" ++
  "> 工具: " ++ session.aiTool ++ "\n" ++
  "> 耗时: " ++ toString (notifyDuration session) ++ "秒\n" ++
  "> 项目: " ++ session.projectPath ++ "\n" ++
  (match session.requirementId with
   | some r => "> 需求: " ++ r
   | none => "") ++ "\n" ++
  (match session.exitCode with
   | some e => "> 退出码: " ++ toString e
   | none => "")

/-- `notifyTaskCompleted`: compose the message and send it through
`sendWeChatMessage`. -/
def notifyTaskCompleted (cfg : NotificationConfig) (session : TerminalSession)
    (outcome : HttpOutcome) : SendResult :=
  sendWeChatMessage cfg (notifyContent session) outcome

/-- A fixed small creation request used by concrete witnesses below. -/
def reqA : CreateSessionRequest :=
  { requirementId := none, projectPath := "p", aiTool := "claude",
    command := "c", cwd := "/tmp", initialInput := none }

/-- A `find?` over a key-preserving map commutes with the map. -/
lemma find?_map_comm {α : Type} (g : α → α) (p : α → Bool)
    (hg : ∀ x, p (g x) = p x) :
    ∀ l : List α, (l.map g).find? p = (l.find? p).map g
  | [] => rfl
  | x :: xs => by
    by_cases hx : p x = true
    · rw [List.map_cons, List.find?_cons_of_pos _ (by rw [hg]; exact hx),
        List.find?_cons_of_pos _ hx]
      simp
    · rw [List.map_cons, List.find?_cons_of_neg _ (by rw [hg]; simpa using hx),
        List.find?_cons_of_neg _ (by simpa using hx), find?_map_comm g p hg xs]

/-- Filtering by a predicate implied by the search predicate does not change
the result of `find?`. -/
lemma find?_filter_comm {α : Type} (p q : α → Bool)
    (himp : ∀ x, p x = true → q x = true) :
    ∀ l : List α, (l.filter q).find? p = l.find? p
  | [] => rfl
  | x :: xs => by
    by_cases hq : q x = true
    · by_cases hx : p x = true
      · rw [List.filter_cons_of_pos hq, List.find?_cons_of_pos _ hx,
          List.find?_cons_of_pos _ hx]
      · rw [List.filter_cons_of_pos hq, List.find?_cons_of_neg _ (by simpa using hx),
          List.find?_cons_of_neg _ (by simpa using hx), find?_filter_comm p q himp xs]
    · have hx : ¬ p x = true := fun hc => hq (himp x hc)
      rw [List.filter_cons_of_neg (by simpa using hq),
        List.find?_cons_of_neg _ (by simpa using hx), find?_filter_comm p q himp xs]

/-- Lookup after an in-place modification under one key. -/
lemma lookupInst_modifyInst (st : PtyManager) (j : Nat) (f : PtyInstance → PtyInstance)
    (i : Nat) :
    lookupInst (modifyInst st j f) i =
      if i = j then (lookupInst st i).map f else lookupInst st i := by
  unfold lookupInst modifyInst
  simp only
  rw [find?_map_comm (fun p => if p.1 = j then (p.1, f p.2) else p)
    (fun p => decide (p.1 = i)) (fun x => by by_cases hxj : x.1 = j <;> simp [hxj])]
  cases hfind : st.instances.find? (fun p => decide (p.1 = i)) with
  | none => simp
  | some x =>
    have hx : x.1 = i := by simpa using List.find?_some hfind
    by_cases hij : i = j
    · subst hij
      simp [hx]
    · simp [hx, hij]

/-- Lookup after deleting one key. -/
lemma lookupInst_eraseInst (st : PtyManager) (j i : Nat) :
    lookupInst (eraseInst st j) i = if i = j then none else lookupInst st i := by
  unfold lookupInst eraseInst
  by_cases hij : i = j
  · subst hij
    simp only [if_pos rfl]
    have : (st.instances.filter (fun p => decide (p.1 ≠ i))).find?
        (fun p => decide (p.1 = i)) = none := by
      apply List.find?_eq_none.mpr
      intro x hx
      have hne := (List.mem_filter.mp hx).2
      simp at hne ⊢
      exact hne
    rw [this]
    simp
  · rw [if_neg hij, find?_filter_comm _ _
      (fun x hx => by simp at hx ⊢; omega)]

/-- Lookup after inserting a fresh key (the `Map.set` of `createSession`). -/
lemma lookupInst_setInst_fresh (st : PtyManager) (j : Nat) (inst : PtyInstance)
    (hj : lookupInst st j = none) (i : Nat) :
    lookupInst (setInst st j inst) i = if i = j then some inst else lookupInst st i := by
  have hf : st.instances.find? (fun p => decide (p.1 = j)) = none := by
    unfold lookupInst at hj
    cases hv : st.instances.find? (fun p => decide (p.1 = j)) with
    | none => rfl
    | some x => rw [hv] at hj; simp at hj
  unfold setInst
  rw [if_neg (by simp [hf])]
  unfold lookupInst
  simp only [List.find?_append]
  by_cases hij : i = j
  · subst hij
    rw [hf]
    simp
  · have hji : ¬ (j = i) := fun hc => hij hc.symm
    have hone : ([(j, inst)].find? fun p => decide (p.1 = i)) = none := by
      simp [List.find?, hji]
    rw [hone, if_neg hij]
    simp

/-- The (instances of the) state produced by `createSession` when admission
succeeds: the fresh instance is appended. -/
lemma createSession_instances (st : PtyManager) (req : CreateSessionRequest) (now : Int)
    (hwf : ∀ p ∈ st.instances, p.1 < st.nextId) (hcan : canCreateSession st = true) :
    (createSession st req now).2.instances =
      st.instances ++ [(st.nextId,
        { session :=
            { id := st.nextId, requirementId := req.requirementId,
              projectPath := req.projectPath, aiTool := req.aiTool,
              status := Status.running, command := req.command, cwd := req.cwd,
              createdAt := now, completedAt := none, exitCode := none }
          outputBuffer := [] })] := by
  have hf : st.instances.find? (fun p => decide (p.1 = st.nextId)) = none := by
    apply List.find?_eq_none.mpr
    intro x hx
    have := hwf x hx
    simp
    omega
  simp [createSession, hcan, setInst, hf]

/-- A fresh id is not resident. -/
lemma lookupInst_of_ge (st : PtyManager) (i : Nat)
    (hwf : ∀ p ∈ st.instances, p.1 < st.nextId) (hi : st.nextId ≤ i) :
    lookupInst st i = none := by
  unfold lookupInst
  rw [List.find?_eq_none.mpr]
  · rfl
  · intro x hx
    have := hwf x hx
    simp
    omega

/-- The joint invariant maintained by every event-loop step: fresh ids are
above all resident keys, at most `MAX_PARALLEL_SESSIONS` sessions are
running, a running session has neither `completedAt` nor `exitCode`, the
ghost history of an unallocated id is empty, and each resident buffer is a
bounded suffix of that session's full emission history. -/
structure RegInv (st : PtyManager) (h : Nat → List String) : Prop where
  wf : ∀ p ∈ st.instances, p.1 < st.nextId
  cnt : getActiveSessionCount st ≤ MAX_PARALLEL_SESSIONS
  clean : ∀ p ∈ st.instances, p.2.session.status = Status.running →
    p.2.session.completedAt = none ∧ p.2.session.exitCode = none
  freshHist : ∀ i, st.nextId ≤ i → h i = []
  buf : ∀ p ∈ st.instances, p.2.outputBuffer.length ≤ 10000 ∧
    ∃ k, k ≤ (h p.1).length ∧ p.2.outputBuffer = (h p.1).drop k

/-- Session-preserving in-place modification keeps the running count. -/
lemma count_modifyInst_eq (st : PtyManager) (j : Nat) (f : PtyInstance → PtyInstance)
    (hf : ∀ inst, (f inst).session.status = inst.session.status) :
    getActiveSessionCount (modifyInst st j f) = getActiveSessionCount st := by
  unfold getActiveSessionCount modifyInst
  simp only
  rw [List.countP_map]
  apply List.countP_congr
  intro x _
  by_cases hxj : x.1 = j <;> simp [Function.comp, hxj, hf]

/-- A modification that never produces a running status cannot raise the
running count. -/
lemma count_modifyInst_le (st : PtyManager) (j : Nat) (f : PtyInstance → PtyInstance)
    (hf : ∀ inst, (f inst).session.status = Status.running →
      inst.session.status = Status.running) :
    getActiveSessionCount (modifyInst st j f) ≤ getActiveSessionCount st := by
  unfold getActiveSessionCount modifyInst
  simp only
  rw [List.countP_map]
  apply List.countP_mono_left
  intro x _
  by_cases hxj : x.1 = j
  · simp only [Function.comp, hxj, if_pos rfl]
    intro hx
    simp at hx ⊢
    exact hf _ hx
  · simp [Function.comp, hxj]

/-- Membership in a modified instance list comes from an original member with
the same key. -/
lemma mem_modifyInst (st : PtyManager) (j : Nat) (f : PtyInstance → PtyInstance)
    (p : Nat × PtyInstance) (hp : p ∈ (modifyInst st j f).instances) :
    ∃ q ∈ st.instances, p = (if q.1 = j then (q.1, f q.2) else q) := by
  unfold modifyInst at hp
  simp only at hp
  obtain ⟨q, hq, hqe⟩ := List.mem_map.mp hp
  exact ⟨q, hq, hqe.symm⟩

/-- The invariant is preserved by an in-place modification that keeps the
buffer, does not create a running status, and keeps `completedAt`/`exitCode`
clean on any session it leaves running. -/
lemma RegInv_modify_session (st : PtyManager) (h : Nat → List String) (j : Nat)
    (f : PtyInstance → PtyInstance)
    (hi : RegInv st h)
    (hbuf : ∀ inst, (f inst).outputBuffer = inst.outputBuffer)
    (hrun : ∀ inst, (f inst).session.status ≠ Status.running) :
    RegInv (modifyInst st j f) h := by
  refine ⟨?_, ?_, ?_, hi.freshHist, ?_⟩
  · intro p hp
    obtain ⟨q, hq, hqe⟩ := mem_modifyInst st j f p hp
    have : p.1 = q.1 := by subst hqe; by_cases hqj : q.1 = j <;> simp [hqj]
    rw [show (modifyInst st j f).nextId = st.nextId from rfl, this]
    exact hi.wf q hq
  · exact le_trans (count_modifyInst_le st j f (fun inst hr => absurd hr (hrun inst))) hi.cnt
  · intro p hp hrunp
    obtain ⟨q, hq, hqe⟩ := mem_modifyInst st j f p hp
    by_cases hqj : q.1 = j
    · rw [hqe, if_pos hqj] at hrunp
      exact absurd hrunp (hrun q.2)
    · rw [hqe, if_neg hqj] at hrunp ⊢
      exact hi.clean q hq hrunp
  · intro p hp
    obtain ⟨q, hq, hqe⟩ := mem_modifyInst st j f p hp
    by_cases hqj : q.1 = j
    · rw [hqe, if_pos hqj]
      simpa [hbuf, hqj] using hi.buf q hq
    · rw [hqe, if_neg hqj]
      exact hi.buf q hq

/-- The invariant is preserved by the `onExit` callback. -/
lemma RegInv_onExit (st : PtyManager) (h : Nat → List String) (j : Nat)
    (code now : Int) (hi : RegInv st h) :
    RegInv (onExit st j code now) h := by
  apply RegInv_modify_session st h j _ hi
  · intro inst; rfl
  · intro inst
    by_cases hc : code = 0 <;> simp [hc]

/-- The invariant is preserved by `killSession`. -/
lemma RegInv_killSession (st : PtyManager) (h : Nat → List String) (j : Nat)
    (now : Int) (hi : RegInv st h) :
    RegInv (killSession st j now).2 h := by
  cases hl : lookupInst st j with
  | none => simp only [killSession, hl]; exact hi
  | some inst =>
    simp only [killSession, hl]
    by_cases hr : inst.session.status = Status.running
    · rw [if_pos hr]
      show RegInv (modifyInst st j fun i =>
        { i with session :=
            { i.session with status := Status.failed, completedAt := some now } }) h
      refine RegInv_modify_session st h j _ hi (fun _ => rfl) ?_
      intro inst
      simp
    · rw [if_neg hr]
      exact hi

/-- The invariant is preserved by `eraseInst`. -/
lemma RegInv_eraseInst (st : PtyManager) (h : Nat → List String) (j : Nat)
    (hi : RegInv st h) : RegInv (eraseInst st j) h := by
  have hsub : ∀ p ∈ (eraseInst st j).instances, p ∈ st.instances := by
    intro p hp
    exact (List.mem_filter.mp hp).1
  refine ⟨fun p hp => hi.wf p (hsub p hp), ?_, fun p hp => hi.clean p (hsub p hp),
    hi.freshHist, fun p hp => hi.buf p (hsub p hp)⟩
  exact le_trans ((List.filter_sublist st.instances).countP_le _) hi.cnt

/-- The invariant is preserved by `removeSession`. -/
lemma RegInv_removeSession (st : PtyManager) (h : Nat → List String) (j : Nat)
    (now : Int) (hi : RegInv st h) :
    RegInv (removeSession st j now).2 h := by
  cases hl : lookupInst st j with
  | none => simp only [removeSession, hl]; exact hi
  | some inst =>
    simp only [removeSession, hl]
    by_cases hr : inst.session.status = Status.running
    · rw [if_pos hr]
      exact RegInv_eraseInst _ h j (RegInv_killSession st h j now hi)
    · rw [if_neg hr]
      exact RegInv_eraseInst _ h j hi

/-- The invariant is preserved by `createSession`. -/
lemma RegInv_createSession (st : PtyManager) (h : Nat → List String)
    (req : CreateSessionRequest) (now : Int) (hi : RegInv st h) :
    RegInv (createSession st req now).2 h := by
  by_cases hcan : canCreateSession st = true
  · have hinst := createSession_instances st req now hi.wf hcan
    have hnext : (createSession st req now).2.nextId = st.nextId + 1 := by
      simp [createSession, hcan, setInst]
    have hcnt : getActiveSessionCount st < MAX_PARALLEL_SESSIONS := by
      simpa [canCreateSession] using hcan
    refine ⟨?_, ?_, ?_, ?_, ?_⟩
    · intro p hp
      rw [hinst] at hp
      rw [hnext]
      rcases List.mem_append.mp hp with hold | hnew
      · exact Nat.lt_succ_of_lt (hi.wf p hold)
      · obtain rfl := List.mem_singleton.mp hnew
        omega
    · show getActiveSessionCount _ ≤ _
      unfold getActiveSessionCount
      rw [hinst, List.countP_append]
      simp only [List.countP_cons, List.countP_nil]
      have : getActiveSessionCount st < MAX_PARALLEL_SESSIONS := hcnt
      unfold getActiveSessionCount at this
      simp
      omega
    · intro p hp hrunp
      rw [hinst] at hp
      rcases List.mem_append.mp hp with hold | hnew
      · exact hi.clean p hold hrunp
      · simp at hnew
        rw [hnew]
        constructor <;> rfl
    · intro i hni
      rw [hnext] at hni
      exact hi.freshHist i (by omega)
    · intro p hp
      rw [hinst] at hp
      rcases List.mem_append.mp hp with hold | hnew
      · exact hi.buf p hold
      · simp at hnew
        rw [hnew]
        refine ⟨by simp, 0, by simp, ?_⟩
        have : h st.nextId = [] := hi.freshHist st.nextId le_rfl
        simp [this]
  · have : (createSession st req now).2 = st := by
      simp [createSession, hcan]
    rw [this]
    exact hi

/-- `pushChunk` keeps the buffer within capacity. -/
lemma pushChunk_length_le (buf : List String) (data : String)
    (h : buf.length ≤ 10000) : (pushChunk buf data).length ≤ 10000 := by
  unfold pushChunk
  by_cases hlen : (buf ++ [data]).length > 10000
  · rw [if_pos hlen]
    simp at hlen ⊢
    omega
  · rw [if_neg hlen]
    simp at hlen ⊢
    omega

/-- `pushChunk` maps a suffix of the old history to a suffix of the extended
history. -/
lemma pushChunk_suffix (hist buf : List String) (data : String) (k : Nat)
    (hk : k ≤ hist.length) (hbuf : buf = hist.drop k) :
    ∃ k2, k2 ≤ (hist ++ [data]).length ∧
      pushChunk buf data = (hist ++ [data]).drop k2 := by
  have hb2 : buf ++ [data] = (hist ++ [data]).drop k := by
    rw [hbuf, List.drop_append_of_le_length hk]
  unfold pushChunk
  by_cases hlen : (buf ++ [data]).length > 10000
  · rw [if_pos hlen]
    refine ⟨k + 1, ?_, ?_⟩
    · simp
      omega
    · rw [hb2, List.drop_drop]
  · rw [if_neg hlen]
    refine ⟨k, ?_, hb2⟩
    simp
    omega

/-- A key-guarded map over entries none of whose keys match is the identity. -/
lemma map_id_of_key_ne (j : Nat) (f : PtyInstance → PtyInstance) :
    ∀ l : List (Nat × PtyInstance), (∀ p ∈ l, ¬ p.1 = j) →
      l.map (fun p => if p.1 = j then (p.1, f p.2) else p) = l
  | [], _ => rfl
  | x :: xs, hkey => by
    rw [List.map_cons, if_neg (hkey x (by simp)),
      map_id_of_key_ne j f xs (fun p hp => hkey p (by simp [hp]))]

/-- Modifying an id that is not resident changes nothing. -/
lemma modifyInst_absent (st : PtyManager) (j : Nat) (f : PtyInstance → PtyInstance)
    (hnone : lookupInst st j = none) : modifyInst st j f = st := by
  have hfind : st.instances.find? (fun p => decide (p.1 = j)) = none := by
    unfold lookupInst at hnone
    cases hv : st.instances.find? (fun p => decide (p.1 = j)) with
    | none => rfl
    | some x => rw [hv] at hnone; simp at hnone
  have hkey : ∀ p ∈ st.instances, ¬ p.1 = j := by
    intro p hp
    have := List.find?_eq_none.mp hfind p hp
    simpa using this
  unfold modifyInst
  rw [map_id_of_key_ne j f st.instances hkey]

/-- The invariant is preserved by the `onData` callback together with its
ghost history update. -/
lemma RegInv_onData (st : PtyManager) (h : Nat → List String) (j : Nat)
    (data : String) (hi : RegInv st h) :
    RegInv (onData st j data) (histStep st h (Event.dataEv j data)) := by
  by_cases hres : (lookupInst st j).isSome
  · have hstep : histStep st h (Event.dataEv j data)
        = fun i => if i = j then h i ++ [data] else h i := by
      simp [histStep, hres]
    have hjlt : j < st.nextId := by
      by_contra hge
      rw [lookupInst_of_ge st j hi.wf (by omega)] at hres
      simp at hres
    rw [hstep]
    refine ⟨?_, ?_, ?_, ?_, ?_⟩
    · intro p hp
      obtain ⟨q, hq, hqe⟩ := mem_modifyInst st j _ p hp
      have : p.1 = q.1 := by subst hqe; by_cases hqj : q.1 = j <;> simp [hqj]
      rw [show (onData st j data).nextId = st.nextId from rfl, this]
      exact hi.wf q hq
    · show getActiveSessionCount (modifyInst st j (fun inst =>
        { inst with outputBuffer := pushChunk inst.outputBuffer data })) ≤ MAX_PARALLEL_SESSIONS
      rw [count_modifyInst_eq st j (fun inst =>
        { inst with outputBuffer := pushChunk inst.outputBuffer data }) (fun _ => rfl)]
      exact hi.cnt
    · intro p hp hrunp
      obtain ⟨q, hq, hqe⟩ := mem_modifyInst st j _ p hp
      by_cases hqj : q.1 = j
      · rw [hqe, if_pos hqj] at hrunp ⊢
        exact hi.clean q hq hrunp
      · rw [hqe, if_neg hqj] at hrunp ⊢
        exact hi.clean q hq hrunp
    · intro i hni
      have hnx : (onData st j data).nextId = st.nextId := rfl
      rw [hnx] at hni
      have : ¬ (i = j) := by omega
      rw [if_neg this]
      exact hi.freshHist i hni
    · intro p hp
      obtain ⟨q, hq, hqe⟩ := mem_modifyInst st j _ p hp
      obtain ⟨hlen, k, hk, hsuf⟩ := hi.buf q hq
      by_cases hqj : q.1 = j
      · rw [hqe, if_pos hqj]
        simp only [hqj, if_pos rfl]
        obtain ⟨k2, hk2, hps⟩ := pushChunk_suffix (h j) q.2.outputBuffer data k
          (by rw [hqj] at hk; exact hk) (by rw [hqj] at hsuf; exact hsuf)
        exact ⟨pushChunk_length_le _ _ hlen, k2, hk2, hps⟩
      · rw [hqe, if_neg hqj]
        simp only [if_neg hqj]
        exact ⟨hlen, k, hk, hsuf⟩
  · have hstep : histStep st h (Event.dataEv j data) = h := by
      simp [histStep, hres]
    have hnone : lookupInst st j = none := by
      cases hv : lookupInst st j with
      | none => rfl
      | some x => rw [hv] at hres; simp at hres
    have hid : onData st j data = st := modifyInst_absent st j _ hnone
    rw [hstep, hid]
    exact hi

/-- One event-loop step preserves the joint invariant. -/
lemma RegInv_step (st : PtyManager) (h : Nat → List String) (e : Event)
    (hi : RegInv st h) : RegInv (step st e) (histStep st h e) := by
  cases e with
  | createEv req now =>
      have : histStep st h (Event.createEv req now) = h := rfl
      rw [this]
      exact RegInv_createSession st h req now hi
  | dataEv sessionId data => exact RegInv_onData st h sessionId data hi
  | exitEv sessionId code now =>
      have : histStep st h (Event.exitEv sessionId code now) = h := rfl
      rw [this]
      exact RegInv_onExit st h sessionId code now hi
  | writeEv sessionId data => exact hi
  | resizeEv sessionId cols rows => exact hi
  | killEv sessionId now =>
      have : histStep st h (Event.killEv sessionId now) = h := rfl
      rw [this]
      exact RegInv_killSession st h sessionId now hi
  | removeEv sessionId now =>
      have : histStep st h (Event.removeEv sessionId now) = h := rfl
      rw [this]
      exact RegInv_removeSession st h sessionId now hi

/-- The instrumented run projects to the plain run. -/
lemma runH_fst (evs : List Event) : (runH evs).1 = run evs := by
  unfold runH run
  suffices hgen : ∀ (st : PtyManager) (h : Nat → List String),
      (evs.foldl (fun acc e => (step acc.1 e, histStep acc.1 acc.2 e)) (st, h)).1 =
        evs.foldl step st by
    exact hgen initState (fun _ => [])
  induction evs with
  | nil => intro st h; rfl
  | cons e rest ih => intro st h; exact ih (step st e) (histStep st h e)

/-- Every reachable registry state satisfies the joint invariant, with the
instrumented history as ghost state. -/
lemma RegInv_runH (evs : List Event) : RegInv (run evs) (runH evs).2 := by
  rw [← runH_fst]
  unfold runH
  suffices hgen : ∀ (st : PtyManager) (h : Nat → List String), RegInv st h →
      RegInv (evs.foldl (fun acc e => (step acc.1 e, histStep acc.1 acc.2 e)) (st, h)).1
        (evs.foldl (fun acc e => (step acc.1 e, histStep acc.1 acc.2 e)) (st, h)).2 by
    apply hgen
    refine ⟨?_, ?_, ?_, ?_, ?_⟩ <;> simp [initState, getActiveSessionCount, MAX_PARALLEL_SESSIONS]
  induction evs with
  | nil => intro st h hi; exact hi
  | cons e rest ih => intro st h hi; exact ih (step st e) (histStep st h e) (RegInv_step st h e hi)

/-- A successful registry lookup is a membership fact. -/
lemma lookupInst_mem (st : PtyManager) (i : Nat) (inst : PtyInstance)
    (h : lookupInst st i = some inst) : (i, inst) ∈ st.instances := by
  unfold lookupInst at h
  cases hv : st.instances.find? (fun p => decide (p.1 = i)) with
  | none => rw [hv] at h; simp at h
  | some x =>
      rw [hv] at h
      simp at h
      have hx : x.1 = i := by simpa using List.find?_some hv
      have hmem := List.mem_of_find?_eq_some hv
      have : x = (i, inst) := by
        cases x
        simp at hx h ⊢
        exact ⟨hx, h⟩
      rw [this] at hmem
      exact hmem

/-- Record update of `nextId` does not affect lookups. -/
lemma lookupInst_nextIdUpdate (st : PtyManager) (n : Nat) (i : Nat) :
    lookupInst { st with nextId := n } i = lookupInst st i := rfl

/-- The fixed five-creation trace used by the admission witness. -/
def evsFive : List Event :=
  [Event.createEv reqA 0, Event.createEv reqA 0, Event.createEv reqA 0,
   Event.createEv reqA 0, Event.createEv reqA 0]

/-- C1: along every event trace, at most five resident sessions are
simultaneously `running`, and a `createSession` arriving when the running
count already equals the ceiling of `MAX_PARALLEL_SESSIONS = 5` returns no
session and leaves the registry, including the id counter, unchanged. -/
theorem admission_ceiling_holds (evs : List Event) (req : CreateSessionRequest) (now : Int) :
    getActiveSessionCount (run evs) ≤ 5 ∧
    (getActiveSessionCount (run evs) = 5 →
      createSession (run evs) req now = (none, run evs)) := by
  have hi := RegInv_runH evs
  refine ⟨hi.cnt, ?_⟩
  intro h5
  unfold createSession canCreateSession
  rw [h5]
  simp [MAX_PARALLEL_SESSIONS]

/-- Witness for C1: after five creations the running count is exactly five
and a sixth creation is rejected without touching the registry. -/
theorem admission_ceiling_holds_witness :
    getActiveSessionCount (run evsFive) = 5 ∧
    createSession (run evsFive) reqA 7 = (none, run evsFive) :=
  ⟨by decide, (admission_ceiling_holds evsFive reqA 7).2 (by decide)⟩

/-- C2 counterexample: after `killSession` has made a session terminal
(`failed`, `completedAt = 5`), a later exit callback with code 0 flips the
status to `completed` and rewrites `completedAt`, so a terminal status is not
immutable on the code. -/
theorem terminal_status_overwritten_cex :
    (getSession (run [Event.createEv reqA 0, Event.killEv 0 5]) 0).map TerminalSession.status
      = some Status.failed ∧
    (getSession (run [Event.createEv reqA 0, Event.killEv 0 5]) 0).map TerminalSession.completedAt
      = some (some 5) ∧
    (getSession (run [Event.createEv reqA 0, Event.killEv 0 5, Event.exitEv 0 0 9]) 0).map
        TerminalSession.status = some Status.completed ∧
    (getSession (run [Event.createEv reqA 0, Event.killEv 0 5, Event.exitEv 0 0 9]) 0).map
        TerminalSession.completedAt = some (some 9) :=
  ⟨by decide, by decide, by decide, by decide⟩

/-- C2 (amended): a resident session's status is changed by an event only
through the exit callback (which sets the status from its code together with
`completedAt`/`exitCode`, even when the session is already terminal) or
through `killSession` on a running session (which sets `failed`); a
`killSession` on an already-terminal session is a no-op returning `true` that
leaves the whole registry, hence `completedAt` and `exitCode`, unchanged. -/
theorem status_transitions_amended (evs : List Event) (i : Nat) (s : TerminalSession)
    (now : Int) (e : Event) (h : getSession (run evs) i = some s) :
    (s.status ≠ Status.running → killSession (run evs) i now = (true, run evs)) ∧
    (∀ s2, getSession (step (run evs) e) i = some s2 → s2.status ≠ s.status →
      (∃ c t, e = Event.exitEv i c t ∧
        s2.status = (if c = 0 then Status.completed else Status.failed) ∧
        s2.completedAt = some t ∧ s2.exitCode = some c) ∨
      (∃ t, e = Event.killEv i t ∧ s.status = Status.running ∧
        s2.status = Status.failed)) := by
  have hi := RegInv_runH evs
  obtain ⟨inst, hlk, his⟩ : ∃ inst, lookupInst (run evs) i = some inst ∧ inst.session = s := by
    unfold getSession at h
    cases hv : lookupInst (run evs) i with
    | none => rw [hv] at h; simp at h
    | some x => rw [hv] at h; simp at h; exact ⟨x, rfl, h⟩
  have hidlt : i < (run evs).nextId := hi.wf _ (lookupInst_mem _ _ _ hlk)
  constructor
  · intro hterm
    simp only [killSession, hlk]
    rw [if_neg (by rw [his]; exact hterm)]
  · intro s2 h2 hne
    cases e with
    | createEv req t =>
        exfalso
        have hlk2 : lookupInst (step (run evs) (Event.createEv req t)) i
            = lookupInst (run evs) i := by
          simp only [step]
          by_cases hcan : canCreateSession (run evs) = true
          · simp only [createSession, hcan, if_pos]
            rw [lookupInst_nextIdUpdate]
            rw [lookupInst_setInst_fresh _ _ _
              (lookupInst_of_ge _ _ hi.wf le_rfl) i]
            rw [if_neg (by omega)]
          · simp [createSession, hcan]
        unfold getSession at h2
        rw [hlk2, hlk] at h2
        simp at h2
        rw [← h2, his] at hne
        exact hne rfl
    | dataEv j d =>
        exfalso
        unfold getSession at h2
        simp only [step, onData] at h2
        rw [lookupInst_modifyInst] at h2
        by_cases hij : i = j
        · rw [if_pos hij, hlk] at h2
          simp at h2
          rw [← h2, his] at hne
          exact hne rfl
        · rw [if_neg hij, hlk] at h2
          simp at h2
          rw [← h2, his] at hne
          exact hne rfl
    | exitEv j c t =>
        unfold getSession at h2
        simp only [step, onExit] at h2
        rw [lookupInst_modifyInst] at h2
        by_cases hij : i = j
        · rw [if_pos hij, hlk] at h2
          simp at h2
          left
          refine ⟨c, t, by rw [hij], ?_, ?_, ?_⟩ <;> rw [← h2]
        · exfalso
          rw [if_neg hij, hlk] at h2
          simp at h2
          rw [← h2, his] at hne
          exact hne rfl
    | writeEv j d =>
        exfalso
        simp only [step] at h2
        rw [h2] at h
        simp at h
        rw [← h] at hne
        exact hne rfl
    | resizeEv j c r =>
        exfalso
        simp only [step] at h2
        rw [h2] at h
        simp at h
        rw [← h] at hne
        exact hne rfl
    | killEv j t =>
        simp only [step] at h2
        cases hlj : lookupInst (run evs) j with
        | none =>
            exfalso
            simp only [killSession, hlj] at h2
            rw [h2] at h
            simp at h
            rw [← h] at hne
            exact hne rfl
        | some instj =>
            simp only [killSession, hlj] at h2
            by_cases hrj : instj.session.status = Status.running
            · rw [if_pos hrj] at h2
              unfold getSession at h2
              simp only at h2
              rw [lookupInst_modifyInst] at h2
              by_cases hij : i = j
              · rw [if_pos hij, hlk] at h2
                simp at h2
                right
                refine ⟨t, by rw [hij], ?_, ?_⟩
                · rw [← his]
                  subst hij
                  rw [hlk] at hlj
                  injection hlj with hinj
                  rw [hinj]
                  exact hrj
                · rw [← h2]
              · exfalso
                rw [if_neg hij, hlk] at h2
                simp at h2
                rw [← h2, his] at hne
                exact hne rfl
            · exfalso
              rw [if_neg hrj] at h2
              rw [h2] at h
              simp at h
              rw [← h] at hne
              exact hne rfl
    | removeEv j t =>
        exfalso
        simp only [step] at h2
        cases hlj : lookupInst (run evs) j with
        | none =>
            simp only [removeSession, hlj] at h2
            rw [h2] at h
            simp at h
            rw [← h] at hne
            exact hne rfl
        | some instj =>
            simp only [removeSession, hlj] at h2
            unfold getSession at h2
            rw [lookupInst_eraseInst] at h2
            by_cases hij : i = j
            · rw [if_pos hij] at h2
              simp at h2
            · rw [if_neg hij] at h2
              have hsame : lookupInst
                  (if instj.session.status = Status.running
                    then (killSession (run evs) j t).2 else (run evs)) i
                  = lookupInst (run evs) i := by
                by_cases hrj : instj.session.status = Status.running
                · rw [if_pos hrj]
                  simp only [killSession, hlj, if_pos hrj]
                  rw [lookupInst_modifyInst, if_neg hij]
                · rw [if_neg hrj]
              rw [hsame, hlk] at h2
              simp at h2
              rw [← h2, his] at hne
              exact hne rfl

/-- The session record left behind by the trace create-then-kill, used by the
C2 witness. -/
def sessKilled : TerminalSession :=
  { id := 0, requirementId := none, projectPath := "p", aiTool := "claude",
    status := Status.failed, command := "c", cwd := "/tmp", createdAt := 0,
    completedAt := some 5, exitCode := none }

/-- Witness for the amended C2: on the concrete create-then-kill trace the
terminal session re-kills as a no-op returning `true`. -/
theorem status_transitions_amended_witness :
    killSession (run [Event.createEv reqA 0, Event.killEv 0 5]) 0 7
      = (true, run [Event.createEv reqA 0, Event.killEv 0 5]) :=
  (status_transitions_amended [Event.createEv reqA 0, Event.killEv 0 5] 0 sessKilled 7
    (Event.exitEv 0 0 9) (by decide)).1 (by decide)

/-- C3 counterexample: right after `killSession` on a running session the
status is terminal (`failed`) and `completedAt` is set, but `exitCode` is
still unset — the two fields are not set together at this transition. -/
theorem exitCode_unset_after_kill_cex :
    (getSession (run [Event.createEv reqA 0, Event.killEv 0 5]) 0).map TerminalSession.status
      = some Status.failed ∧
    (getSession (run [Event.createEv reqA 0, Event.killEv 0 5]) 0).map TerminalSession.completedAt
      = some (some 5) ∧
    (getSession (run [Event.createEv reqA 0, Event.killEv 0 5]) 0).map TerminalSession.exitCode
      = some none :=
  ⟨by decide, by decide, by decide⟩

/-- C3 (amended): while a session is running both `completedAt` and
`exitCode` are unset; the exit callback sets the two fields together; and
`killSession` on a running session sets `status = failed` and `completedAt`
but leaves `exitCode` exactly as it was (unset until an exit callback). -/
theorem completion_fields_amended (evs : List Event) (i : Nat) (inst : PtyInstance)
    (code t1 t2 : Int) (h : lookupInst (run evs) i = some inst) :
    (inst.session.status = Status.running →
      inst.session.completedAt = none ∧ inst.session.exitCode = none) ∧
    (∀ inst2, lookupInst (onExit (run evs) i code t1) i = some inst2 →
      inst2.session.completedAt = some t1 ∧ inst2.session.exitCode = some code) ∧
    (inst.session.status = Status.running →
      ∀ inst2, lookupInst (killSession (run evs) i t2).2 i = some inst2 →
        inst2.session.status = Status.failed ∧ inst2.session.completedAt = some t2 ∧
        inst2.session.exitCode = inst.session.exitCode) := by
  have hi := RegInv_runH evs
  refine ⟨hi.clean _ (lookupInst_mem _ _ _ h), ?_, ?_⟩
  · intro inst2 h2
    unfold onExit at h2
    rw [lookupInst_modifyInst, if_pos rfl, h] at h2
    simp at h2
    rw [← h2]
    exact ⟨rfl, rfl⟩
  · intro hrun inst2 h2
    simp only [killSession, h, if_pos hrun] at h2
    rw [lookupInst_modifyInst, if_pos rfl, h] at h2
    simp at h2
    rw [← h2]
    exact ⟨rfl, rfl, rfl⟩

/-- The resident instance right after one creation, used by witnesses. -/
def instFresh : PtyInstance :=
  { session :=
      { id := 0, requirementId := none, projectPath := "p", aiTool := "claude",
        status := Status.running, command := "c", cwd := "/tmp", createdAt := 0,
        completedAt := none, exitCode := none }
    outputBuffer := [] }

/-- Witness for the amended C3 at the one-creation trace: the running session
has both completion fields unset, and an exit callback with code 2 at time 9
sets them together. -/
theorem completion_fields_amended_witness :
    (instFresh.session.completedAt = none ∧ instFresh.session.exitCode = none) ∧
    ({ session :=
        { id := 0, requirementId := none, projectPath := "p", aiTool := "claude",
          status := Status.failed, command := "c", cwd := "/tmp", createdAt := 0,
          completedAt := some 9, exitCode := some 2 }
       outputBuffer := [] } : PtyInstance).session.completedAt = some 9 ∧
    ({ session :=
        { id := 0, requirementId := none, projectPath := "p", aiTool := "claude",
          status := Status.failed, command := "c", cwd := "/tmp", createdAt := 0,
          completedAt := some 9, exitCode := some 2 }
       outputBuffer := [] } : PtyInstance).session.exitCode = some 2 :=
  ⟨(completion_fields_amended [Event.createEv reqA 0] 0 instFresh 2 9 11 (by decide)).1 rfl,
   ((completion_fields_amended [Event.createEv reqA 0] 0 instFresh 2 9 11 (by decide)).2.1
      _ (by decide)).1,
   ((completion_fields_amended [Event.createEv reqA 0] 0 instFresh 2 9 11 (by decide)).2.1
      _ (by decide)).2⟩

/-- A creation request whose `initialInput` is supplied but empty, used by
the C4 counterexample. -/
def reqEmptyInput : CreateSessionRequest :=
  { requirementId := none, projectPath := "p", aiTool := "claude",
    command := "claude", cwd := "/tmp", initialInput := some "" }

/-- C4 counterexample: with `command = claude` and a supplied empty
`initialInput`, the code injects just `claude` plus carriage return, not the
claimed command-space-quoted-argument shape (which would be `claude` followed
by two quote characters). -/
theorem empty_initialInput_not_appended_cex :
    injectedText reqEmptyInput = some "claude\r" ∧
    ¬ injectedText reqEmptyInput = some (claimInjectedText "claude" "") :=
  ⟨by decide, by decide⟩

/-- C4 (amended): for a non-empty command and a supplied non-empty
`initialInput`, the injected text is exactly the command, a space, and the
input wrapped in single quotes with each embedded quote escaped as
quote-backslash-quote-quote, followed by a carriage return; a supplied but
empty `initialInput` is not appended and only the command plus carriage
return is injected. -/
theorem injectedText_quoting_amended (req : CreateSessionRequest) (input : String)
    (h1 : req.command ≠ "") (h2 : req.initialInput = some input) :
    (input ≠ "" → injectedText req = some (claimInjectedText req.command input)) ∧
    (input = "" → injectedText req = some (req.command ++ "\r")) := by
  constructor
  · intro hne
    simp [injectedText, h1, h2, hne, claimInjectedText]
  · intro he
    simp [injectedText, h1, h2, he]

/-- The spec's own worked example request (input containing a single quote),
used by the C4 witness. -/
def reqQuote : CreateSessionRequest :=
  { requirementId := none, projectPath := "p", aiTool := "claude",
    command := "claude", cwd := "/tmp/proj",
    initialInput := some ("it" ++ squoteStr ++ "s broken") }

/-- Witness for the amended C4: the spec scenario yields exactly the
POSIX-escaped injection (the quoted argument with the embedded quote expanded
to quote-backslash-quote-quote). -/
theorem injectedText_quoting_amended_witness :
    injectedText reqQuote
      = some (claimInjectedText "claude" ("it" ++ squoteStr ++ "s broken")) ∧
    claimInjectedText "claude" ("it" ++ squoteStr ++ "s broken")
      = "claude " ++ squoteStr ++ "it" ++ squoteStr ++ "\\" ++ squoteStr ++ squoteStr
        ++ "s broken" ++ squoteStr ++ "\r" :=
  ⟨(injectedText_quoting_amended reqQuote ("it" ++ squoteStr ++ "s broken")
      (by decide) rfl).1 (by decide),
   by decide⟩

/-- C5: `writeToSession` and `resizeSession` return `false` and forward
nothing when the id is unknown or the resident session is not running, and
forward the payload returning `true` when the resident session is running. -/
theorem write_resize_guard (st : PtyManager) (i : Nat) (data : String) (cols rows : Nat) :
    (lookupInst st i = none →
      writeToSession st i data = (false, none) ∧
      resizeSession st i cols rows = (false, none)) ∧
    (∀ inst, lookupInst st i = some inst → inst.session.status ≠ Status.running →
      writeToSession st i data = (false, none) ∧
      resizeSession st i cols rows = (false, none)) ∧
    (∀ inst, lookupInst st i = some inst → inst.session.status = Status.running →
      writeToSession st i data = (true, some data) ∧
      resizeSession st i cols rows = (true, some (cols, rows))) := by
  refine ⟨?_, ?_, ?_⟩
  · intro h
    simp [writeToSession, resizeSession, h]
  · intro inst h hnr
    simp [writeToSession, resizeSession, h, hnr]
  · intro inst h hr
    simp [writeToSession, resizeSession, h, hr]

/-- Witness for C5 on concrete registries: a running session accepts a write
and a resize; a killed session and an unknown id refuse both. -/
theorem write_resize_guard_witness :
    (writeToSession (run [Event.createEv reqA 0]) 0 "ls" = (true, some "ls") ∧
      resizeSession (run [Event.createEv reqA 0]) 0 80 24 = (true, some (80, 24))) ∧
    (writeToSession (run [Event.createEv reqA 0, Event.killEv 0 5]) 0 "ls" = (false, none) ∧
      resizeSession (run [Event.createEv reqA 0, Event.killEv 0 5]) 0 80 24 = (false, none)) ∧
    (writeToSession (run [Event.createEv reqA 0]) 42 "ls" = (false, none) ∧
      resizeSession (run [Event.createEv reqA 0]) 42 80 24 = (false, none)) :=
  ⟨(write_resize_guard (run [Event.createEv reqA 0]) 0 "ls" 80 24).2.2
      instFresh (by decide) (by decide),
   (write_resize_guard (run [Event.createEv reqA 0, Event.killEv 0 5]) 0 "ls" 80 24).2.1
      { session := sessKilled, outputBuffer := [] } (by decide) (by decide),
   (write_resize_guard (run [Event.createEv reqA 0]) 42 "ls" 80 24).1 (by decide)⟩

/-- C9: the delayed injection writes nothing at all exactly when the request
command is empty (JS truthiness also covers an absent command); any non-empty
command leads to an injection. -/
theorem empty_command_no_injection (req : CreateSessionRequest) :
    injectedText req = none ↔ req.command = "" := by
  constructor
  · intro h
    by_contra hc
    simp [injectedText, hc] at h
  · intro hc
    simp [injectedText, hc]

/-- A terminal session fixture for the notification witness. -/
def sessDone : TerminalSession :=
  { id := 3, requirementId := some "REQ-9", projectPath := "/tmp/proj",
    aiTool := "claude", status := Status.completed, command := "claude",
    cwd := "/tmp/proj", createdAt := 1000, completedAt := some 3500,
    exitCode := some 0 }

/-- C10: `notifyTaskCompleted` always resolves to a boolean result record;
it resolves `false` and issues no webhook request when notifications are
disabled or the webhook URL is empty, and it resolves `false` on every
network error, timeout, or non-200 response; it resolves `true` only for an
enabled configuration, a non-empty URL and a 200 response parsing to
`errcode = 0`. -/
theorem notifyTaskCompleted_never_raises (cfg : NotificationConfig)
    (session : TerminalSession) (outcome : HttpOutcome) :
    ((cfg.enabled = false ∨ cfg.webhookUrl = "") →
      notifyTaskCompleted cfg session outcome = { requested := none, delivered := false }) ∧
    ((notifyTaskCompleted cfg session outcome).delivered = true →
      cfg.enabled = true ∧ cfg.webhookUrl ≠ "" ∧
      outcome = HttpOutcome.response 200 (some 0)) ∧
    (∀ statusCode errcode, statusCode ≠ 200 →
      (notifyTaskCompleted cfg session (HttpOutcome.response statusCode errcode)).delivered
        = false) ∧
    (notifyTaskCompleted cfg session HttpOutcome.netError).delivered = false ∧
    (notifyTaskCompleted cfg session HttpOutcome.timeout).delivered = false := by
  refine ⟨?_, ?_, ?_, ?_, ?_⟩
  · rintro (hd | hd) <;> simp [notifyTaskCompleted, sendWeChatMessage, hd]
  · intro hdel
    unfold notifyTaskCompleted sendWeChatMessage at hdel
    by_cases hen : cfg.enabled
    · by_cases hurl : cfg.webhookUrl = ""
      · simp [hen, hurl] at hdel
      · refine ⟨hen, hurl, ?_⟩
        cases outcome with
        | response sc ec =>
            simp only [hen, hurl, Bool.not_true, Bool.false_or, if_neg] at hdel
            by_cases hsc : sc = 200
            · subst hsc
              cases ec with
              | some e =>
                  simp at hdel
                  rw [hdel]
              | none => simp at hdel
            · simp [hsc] at hdel
        | netError => simp [hen, hurl] at hdel
        | timeout => simp [hen, hurl] at hdel
        | badUrl => simp [hen, hurl] at hdel
    · simp [hen] at hdel
  · intro sc ec hsc
    by_cases hen : cfg.enabled <;> by_cases hurl : cfg.webhookUrl = "" <;>
      simp [notifyTaskCompleted, sendWeChatMessage, hen, hurl, hsc]
  · by_cases hen : cfg.enabled <;> by_cases hurl : cfg.webhookUrl = "" <;>
      simp [notifyTaskCompleted, sendWeChatMessage, hen, hurl]
  · by_cases hen : cfg.enabled <;> by_cases hurl : cfg.webhookUrl = "" <;>
      simp [notifyTaskCompleted, sendWeChatMessage, hen, hurl]

/-- Witness for C10: a disabled configuration sends nothing and resolves
`false`; an enabled configuration resolves `false` on timeout and on a 500
response. -/
theorem notifyTaskCompleted_never_raises_witness :
    notifyTaskCompleted { enabled := false, webhookUrl := "https" } sessDone
      HttpOutcome.netError = { requested := none, delivered := false } ∧
    (notifyTaskCompleted { enabled := true, webhookUrl := "https" } sessDone
      HttpOutcome.timeout).delivered = false ∧
    (notifyTaskCompleted { enabled := true, webhookUrl := "https" } sessDone
      (HttpOutcome.response 500 none)).delivered = false :=
  ⟨(notifyTaskCompleted_never_raises { enabled := false, webhookUrl := "https" }
      sessDone HttpOutcome.netError).1 (Or.inl rfl),
   (notifyTaskCompleted_never_raises { enabled := true, webhookUrl := "https" }
      sessDone HttpOutcome.timeout).2.2.2.2,
   (notifyTaskCompleted_never_raises { enabled := true, webhookUrl := "https" }
      sessDone HttpOutcome.netError).2.2.1 500 none (by decide)⟩

/-- C6: on every trace, a resident session's output buffer holds at most
10000 chunks, is a suffix of the full emission history of that session (the
most recent chunks in emission order), and `getSessionOutput` is the
concatenation of the buffered chunks, or the empty string for an id that is
not resident; when a data callback finds the buffer at capacity it evicts
exactly the oldest chunk. -/
theorem output_buffer_bounded_suffix (evs : List Event) (i : Nat) (inst : PtyInstance)
    (h : lookupInst (run evs) i = some inst) :
    inst.outputBuffer.length ≤ 10000 ∧
    (∃ k, inst.outputBuffer = ((runH evs).2 i).drop k) ∧
    getSessionOutput (run evs) i = String.join inst.outputBuffer ∧
    (∀ st2 j, lookupInst st2 j = none → getSessionOutput st2 j = "") ∧
    (∀ buf d, buf.length = 10000 → pushChunk buf d = buf.drop 1 ++ [d]) := by
  have hi := RegInv_runH evs
  obtain ⟨hlen, k, hk, hsuf⟩ := hi.buf _ (lookupInst_mem _ _ _ h)
  refine ⟨hlen, ⟨k, hsuf⟩, ?_, ?_, ?_⟩
  · simp [getSessionOutput, h]
  · intro st2 j hj
    simp [getSessionOutput, hj]
  · intro buf d hlen10
    unfold pushChunk
    rw [if_pos (by simp [hlen10])]
    exact List.drop_append_of_le_length (by omega)

/-- The trace and resident instance used by the C6 witness. -/
def evsW : List Event :=
  [Event.createEv reqA 0, Event.dataEv 0 "ab", Event.dataEv 0 "cd"]

/-- The instance resident after `evsW`. -/
def instW : PtyInstance :=
  { session :=
      { id := 0, requirementId := none, projectPath := "p", aiTool := "claude",
        status := Status.running, command := "c", cwd := "/tmp", createdAt := 0,
        completedAt := none, exitCode := none }
    outputBuffer := ["ab", "cd"] }

/-- Witness for C6: after two data callbacks the buffer is within capacity
and `getSessionOutput` is the in-order concatenation of the two chunks. -/
theorem output_buffer_bounded_suffix_witness :
    instW.outputBuffer.length ≤ 10000 ∧
    getSessionOutput (run evsW) 0 = String.join instW.outputBuffer :=
  ⟨(output_buffer_bounded_suffix evsW 0 instW (by decide)).1,
   (output_buffer_bounded_suffix evsW 0 instW (by decide)).2.2.1⟩

/-- Composition of two filters as one filter on the conjunction. -/
lemma filter_filter_and {α : Type} (p q : α → Bool) :
    ∀ l : List α, (l.filter q).filter p = l.filter (fun a => p a && q a)
  | [] => rfl
  | x :: xs => by
    by_cases hq : q x = true
    · by_cases hp : p x = true
      · rw [List.filter_cons_of_pos hq, List.filter_cons_of_pos hp,
          List.filter_cons_of_pos (by simp [hp, hq]), filter_filter_and p q xs]
      · rw [List.filter_cons_of_pos hq, List.filter_cons_of_neg (by simpa using hp),
          List.filter_cons_of_neg (by simp [hp]), filter_filter_and p q xs]
    · rw [List.filter_cons_of_neg (by simpa using hq),
        List.filter_cons_of_neg (by simp [hq]), filter_filter_and p q xs]

/-- With pairwise-distinct keys, `find?` on a member's key returns exactly
that member. -/
lemma find?_key_of_nodup :
    ∀ (l : List (Nat × TerminalSession)), (l.map Prod.fst).Nodup →
      ∀ p ∈ l, l.find? (fun q => decide (q.1 = p.1)) = some p
  | [], _, p, hp => by simp at hp
  | x :: xs, hnd, p, hp => by
    have hnd2 : (x.1 :: xs.map Prod.fst).Nodup := by
      rw [List.map_cons] at hnd
      exact hnd
    rcases List.mem_cons.mp hp with rfl | hptl
    · exact List.find?_cons_of_pos _ (by simp)
    · have hx : ¬ (x.1 = p.1) := by
        intro hc
        exact (List.nodup_cons.mp hnd2).1 (hc ▸ List.mem_map_of_mem Prod.fst hptl)
      rw [List.find?_cons_of_neg _ (by simpa using hx)]
      exact find?_key_of_nodup xs (List.nodup_cons.mp hnd2).2 p hptl

/-- Full characterisation of the cleanup fold: starting from a store whose
metadata keys are distinct and a work list that currently loads to its own
records, the fold deletes exactly the listed sessions whose `createdAt` is
before the cutoff (metadata and log), and adds their number to the counter. -/
lemma cleanup_fold_spec (cutoff : Int) :
    ∀ (ms : List (Nat × TerminalSession)) (ps : PersistState) (n : Nat),
      (ps.metas.map Prod.fst).Nodup →
      (ms.map Prod.fst).Nodup →
      (∀ pm ∈ ms, loadSessionMeta ps pm.1 = some pm.2) →
      (ms.map Prod.fst).foldl (fun acc sessionId =>
          match loadSessionMeta acc.1 sessionId with
          | some session =>
              if session.createdAt < cutoff then (deleteSessionLog acc.1 sessionId, acc.2 + 1)
              else acc
          | none => acc) (ps, n) =
        ({ metas := ps.metas.filter (fun p =>
              !(decide (p.2.createdAt < cutoff) && decide (p.1 ∈ ms.map Prod.fst)))
           logs := ps.logs.filter (fun q =>
              !(ms.any (fun pm => decide (pm.1 = q.1) && decide (pm.2.createdAt < cutoff)))) },
         n + ms.countP (fun pm => decide (pm.2.createdAt < cutoff)))
  | [], ps, n, hndps, hndms, hload => by
    simp only [List.map_nil, List.foldl_nil, List.countP_nil, Nat.add_zero]
    have h1 : ps.metas.filter (fun p =>
        !(decide (p.2.createdAt < cutoff) && decide (p.1 ∈ ([] : List Nat))))
        = ps.metas := by
      apply List.filter_eq_self.mpr
      intro a _
      simp
    have h2 : ps.logs.filter (fun q =>
        !(([] : List (Nat × TerminalSession)).any
          (fun pm => decide (pm.1 = q.1) && decide (pm.2.createdAt < cutoff)))) = ps.logs := by
      apply List.filter_eq_self.mpr
      intro a _
      simp
    rw [h1, h2]
  | pm :: ms2, ps, n, hndps, hndms, hload => by
    have hldpm : loadSessionMeta ps pm.1 = some pm.2 := hload pm (by simp)
    have hndms2 : (ms2.map Prod.fst).Nodup := (List.nodup_cons.mp (by simpa using hndms)).2
    have hpmnotin : pm.1 ∉ ms2.map Prod.fst := (List.nodup_cons.mp (by simpa using hndms)).1
    simp only [List.map_cons, List.foldl_cons, hldpm]
    by_cases hold : pm.2.createdAt < cutoff
    · rw [if_pos hold]
      have hnd2 : ((deleteSessionLog ps pm.1).metas.map Prod.fst).Nodup := by
        unfold deleteSessionLog
        exact ((List.filter_sublist ps.metas).map Prod.fst).nodup hndps
      have hload2 : ∀ qm ∈ ms2, loadSessionMeta (deleteSessionLog ps pm.1) qm.1 = some qm.2 := by
        intro qm hqm
        have hqne : ¬ (qm.1 = pm.1) := by
          intro hc
          exact hpmnotin (hc ▸ List.mem_map_of_mem Prod.fst hqm)
        unfold loadSessionMeta deleteSessionLog
        rw [find?_filter_comm _ _ (fun x hx => by
          simp at hx ⊢
          omega)]
        exact hload qm (by simp [hqm])
      rw [cleanup_fold_spec cutoff ms2 (deleteSessionLog ps pm.1) (n + 1) hnd2 hndms2 hload2]
      have hmetas : (deleteSessionLog ps pm.1).metas.filter (fun p =>
          !(decide (p.2.createdAt < cutoff) && decide (p.1 ∈ ms2.map Prod.fst)))
          = ps.metas.filter (fun p =>
              !(decide (p.2.createdAt < cutoff) && decide (p.1 ∈ pm.1 :: ms2.map Prod.fst))) := by
        unfold deleteSessionLog
        rw [filter_filter_and]
        apply List.filter_congr
        intro p hp
        by_cases hkey : p.1 = pm.1
        · have hfind := find?_key_of_nodup ps.metas hndps p hp
          rw [hkey] at hfind
          have hp2 : p.2 = pm.2 := by
            unfold loadSessionMeta at hldpm
            rw [hfind] at hldpm
            simpa using hldpm
          simp [hkey, hp2, hold]
        · have hbf : ∀ a b : Nat, ¬ a = b → (a == b) = false := fun a b hne => by
            simp [hne]
          simp [hkey, hbf _ _ hkey]
      have hlogs : (deleteSessionLog ps pm.1).logs.filter (fun q =>
          !(ms2.any (fun r => decide (r.1 = q.1) && decide (r.2.createdAt < cutoff))))
          = ps.logs.filter (fun q =>
              !((pm :: ms2).any (fun r => decide (r.1 = q.1) && decide (r.2.createdAt < cutoff)))) := by
        unfold deleteSessionLog
        rw [filter_filter_and]
        apply List.filter_congr
        intro q _
        by_cases hkey : pm.1 = q.1
        · simp [hkey, hold]
        · have hb : (decide (pm.1 = q.1)) = false := by simp [hkey]
          rw [List.any_cons, hb]
          simp [hkey, Ne.symm hkey]
      rw [hmetas, hlogs]
      have hcnt : n + 1 + ms2.countP (fun r => decide (r.2.createdAt < cutoff))
          = n + (pm :: ms2).countP (fun r => decide (r.2.createdAt < cutoff)) := by
        rw [List.countP_cons]
        simp [hold]
        omega
      rw [hcnt]
    · rw [if_neg hold]
      rw [cleanup_fold_spec cutoff ms2 ps n hndps hndms2 (fun qm hqm => hload qm (by simp [hqm]))]
      have hmetas : ps.metas.filter (fun p =>
          !(decide (p.2.createdAt < cutoff) && decide (p.1 ∈ ms2.map Prod.fst)))
          = ps.metas.filter (fun p =>
              !(decide (p.2.createdAt < cutoff) && decide (p.1 ∈ pm.1 :: ms2.map Prod.fst))) := by
        apply List.filter_congr
        intro p hp
        by_cases hkey : p.1 = pm.1
        · have hfind := find?_key_of_nodup ps.metas hndps p hp
          rw [hkey] at hfind
          have hp2 : p.2 = pm.2 := by
            unfold loadSessionMeta at hldpm
            rw [hfind] at hldpm
            simpa using hldpm
          simp [hkey, hp2, hold]
        · have hbf : ∀ a b : Nat, ¬ a = b → (a == b) = false := fun a b hne => by
            simp [hne]
          simp [hkey, hbf _ _ hkey]
      have hlogs : ps.logs.filter (fun q =>
          !(ms2.any (fun r => decide (r.1 = q.1) && decide (r.2.createdAt < cutoff))))
          = ps.logs.filter (fun q =>
              !((pm :: ms2).any (fun r => decide (r.1 = q.1) && decide (r.2.createdAt < cutoff)))) := by
        apply List.filter_congr
        intro q _
        by_cases hkey : pm.1 = q.1
        · simp [hkey, hold]
        · have hb : (decide (pm.1 = q.1)) = false := by simp [hkey]
          rw [List.any_cons, hb]
          simp [hkey, Ne.symm hkey]
      have hcnt : n + ms2.countP (fun r => decide (r.2.createdAt < cutoff))
          = n + (pm :: ms2).countP (fun r => decide (r.2.createdAt < cutoff)) := by
        rw [List.countP_cons]
        simp [hold]
      rw [hmetas, hlogs, hcnt]

/-- C7: with distinct metadata keys (one file per id on disk),
`cleanupOldLogs` keeps exactly the metadata records whose `createdAt` is not
before `now - daysToKeep` days, deletes the log artifacts of exactly the
deleted sessions, and returns the number of sessions removed; the in-memory
registry is not an input of the function at all. -/
theorem cleanup_removes_exactly_old (ps : PersistState) (daysToKeep now : Int)
    (hnd : (ps.metas.map Prod.fst).Nodup) :
    (cleanupOldLogs ps daysToKeep now).1.metas
      = ps.metas.filter (fun p => !(decide (p.2.createdAt < cleanupCutoff daysToKeep now))) ∧
    (cleanupOldLogs ps daysToKeep now).1.logs
      = ps.logs.filter (fun q => !(ps.metas.any (fun pm =>
          decide (pm.1 = q.1) && decide (pm.2.createdAt < cleanupCutoff daysToKeep now)))) ∧
    (cleanupOldLogs ps daysToKeep now).2
      = ps.metas.countP (fun p => decide (p.2.createdAt < cleanupCutoff daysToKeep now)) := by
  have hbridge : cleanupOldLogs ps daysToKeep now
      = (ps.metas.map Prod.fst).foldl (fun acc sessionId =>
          match loadSessionMeta acc.1 sessionId with
          | some session =>
              if session.createdAt < cleanupCutoff daysToKeep now then
                (deleteSessionLog acc.1 sessionId, acc.2 + 1)
              else acc
          | none => acc) (ps, 0) := rfl
  have hload : ∀ pm ∈ ps.metas, loadSessionMeta ps pm.1 = some pm.2 := by
    intro pm hpm
    unfold loadSessionMeta
    rw [find?_key_of_nodup ps.metas hnd pm hpm]
    rfl
  rw [hbridge, cleanup_fold_spec (cleanupCutoff daysToKeep now) ps.metas ps 0 hnd hnd hload]
  refine ⟨?_, rfl, by simp⟩
  apply List.filter_congr
  intro p hp
  have hmem : p.1 ∈ ps.metas.map Prod.fst := List.mem_map_of_mem Prod.fst hp
  simp [hmem]

/-- A persisted store with one stale and one fresh session, used by the C7
witness (times in milliseconds; `daysToKeep = 7`). -/
def psW : PersistState :=
  { metas :=
      [(1, { id := 1, requirementId := none, projectPath := "p", aiTool := "claude",
             status := Status.completed, command := "c", cwd := "/tmp",
             createdAt := 0, completedAt := some 1000, exitCode := some 0 }),
       (2, { id := 2, requirementId := none, projectPath := "p", aiTool := "claude",
             status := Status.running, command := "c", cwd := "/tmp",
             createdAt := 999999999999, completedAt := none, exitCode := none })]
    logs := [(1, "old log"), (2, "fresh log")] }

/-- Witness for C7: at `now = 10^12` with seven days retention, exactly the
stale session (created at 0) is removed together with its log and the count
is 1. -/
theorem cleanup_removes_exactly_old_witness :
    (cleanupOldLogs psW 7 1000000000000).1.metas
      = psW.metas.filter (fun p =>
          !(decide (p.2.createdAt < cleanupCutoff 7 1000000000000))) ∧
    (cleanupOldLogs psW 7 1000000000000).2
      = psW.metas.countP (fun p =>
          decide (p.2.createdAt < cleanupCutoff 7 1000000000000)) :=
  ⟨(cleanup_removes_exactly_old psW 7 1000000000000 (by decide)).1,
   (cleanup_removes_exactly_old psW 7 1000000000000 (by decide)).2.2⟩

/-- C8: `getAllSavedSessions` is a permutation of the readable persisted
records sorted by `createdAt` descending, and the session-list merge keeps
every resident record while dropping exactly the persisted records whose id
is resident: for a resident id the merged list's records under that id are
the in-memory ones, for a non-resident id they are the persisted ones. -/
theorem saved_sorted_and_merge_precedence (ps : PersistState)
    (active : List TerminalSession) (i : Nat) :
    (getAllSavedSessions ps).Perm (ps.metas.map Prod.snd) ∧
    List.Sorted createdAtDesc (getAllSavedSessions ps) ∧
    ((active.any (fun a => decide (a.id = i))) = true →
      (mergedSessions active (getAllSavedSessions ps)).filter (fun s => decide (s.id = i))
        = active.filter (fun s => decide (s.id = i))) ∧
    ((active.any (fun a => decide (a.id = i))) = false →
      (mergedSessions active (getAllSavedSessions ps)).filter (fun s => decide (s.id = i))
        = (getAllSavedSessions ps).filter (fun s => decide (s.id = i))) := by
  refine ⟨List.perm_insertionSort _ _, List.sorted_insertionSort _ _, ?_, ?_⟩
  · intro hact
    unfold mergedSessions
    rw [List.filter_append, filter_filter_and]
    have hnil : (getAllSavedSessions ps).filter
        (fun s => decide (s.id = i) && !(active.any (fun a => decide (a.id = s.id)))) = [] := by
      rw [List.filter_eq_nil_iff]
      intro s _
      by_cases hsi : s.id = i
      · simp [hsi, hact]
      · simp [hsi]
    rw [hnil, List.append_nil]
  · intro hact
    unfold mergedSessions
    rw [List.filter_append, filter_filter_and]
    have hnil : active.filter (fun s => decide (s.id = i)) = [] := by
      rw [List.filter_eq_nil_iff]
      intro s hs hsi
      have : active.any (fun a => decide (a.id = i)) = true := by
        apply List.any_eq_true.mpr
        exact ⟨s, hs, by simpa using hsi⟩
      rw [this] at hact
      simp at hact
    have hsame : (getAllSavedSessions ps).filter
        (fun s => decide (s.id = i) && !(active.any (fun a => decide (a.id = s.id))))
        = (getAllSavedSessions ps).filter (fun s => decide (s.id = i)) := by
      apply List.filter_congr
      intro s _
      by_cases hsi : s.id = i
      · simp [hsi, hact]
      · simp [hsi]
    rw [hnil, hsame, List.nil_append]

/-- A resident session sharing id 1 with a persisted record, used by the C8
witness. -/
def activeW : List TerminalSession :=
  [{ id := 1, requirementId := none, projectPath := "p", aiTool := "claude",
     status := Status.running, command := "c", cwd := "/tmp", createdAt := 5,
     completedAt := none, exitCode := none }]

/-- Witness for C8: with a resident session of id 1 and persisted records of
ids 1 and 2, the merged records under id 1 are the resident ones and the
merged records under id 2 are the persisted ones. -/
theorem saved_sorted_and_merge_precedence_witness :
    (mergedSessions activeW (getAllSavedSessions psW)).filter (fun s => decide (s.id = 1))
      = activeW.filter (fun s => decide (s.id = 1)) ∧
    (mergedSessions activeW (getAllSavedSessions psW)).filter (fun s => decide (s.id = 2))
      = (getAllSavedSessions psW).filter (fun s => decide (s.id = 2)) :=
  ⟨(saved_sorted_and_merge_precedence psW activeW 1).2.2.1 (by decide),
   (saved_sorted_and_merge_precedence psW activeW 2).2.2.2 (by decide)⟩
